import Mathlib

/-!
Verification of the solar-car race simulation engine.

This file is a shallow embedding, over the rationals, of the core of the
simulator: the data model (`State`, `RaceActions`, events, `Battery`, `Car`,
`Race`), the battery voltage and charge-current lookups (core/car.py,
core/functions.py), the event processor (core/process_events.py), and the
tick loop of `simulate` (core/simulation.py).

Python floats are modelled as `ℚ` (decimal literals are exact rationals);
Python `int` as `ℤ`.  External pure collaborators that involve transcendental
functions — the solar-position and sun-power formulas (core/sun.py), the
route-location formula (`Race.get_location`, which evaluates `math.radians`
of fixed coordinates) and the air-density constant (core/physics.py,
evaluated at the fixed temperature/altitude/humidity used by `simulate`) —
are abstracted into an `Env` record of injected functions, exactly as the
specification classifies them (pure formula evaluators with no state).
The quantities the engine itself computes are embedded literally.

The unbounded `while True:` loop of `simulate` is embedded as a fuel-indexed
iteration `runAux`; `RunResult.fuelOut` records a run that has not yet
returned after the given number of ticks, so invariants can be stated at
every observation point of every (finite prefix of a) run.  Python
exceptions from list indexing past the end (possible in
`get_target_speed` / `determine_speed_limit` on degenerate inputs) are
modelled by `Option`/`StepResult.crash`.
-/

set_option maxRecDepth 8000

/-- State of the race + car (core/objects.py `State`). -/
structure State where
  distance : ℚ
  energy : ℚ
  soc : ℚ
  time : ℚ
deriving DecidableEq, Repr

/-- What's currently happening during the race (core/objects.py `RaceActions`). -/
structure RaceActions where
  clock_running : Bool
  charging : Bool
  driving : Bool
  normalized : Bool
  grid_charging : Bool
  race_hours : Bool
deriving DecidableEq, Repr

/-- WSC Stage Stop (core/events.py). -/
structure StageStop where
  name : String
  distance : ℚ
  target_arrival : ℚ
  latest_arrival : ℚ
deriving DecidableEq, Repr

/-- WSC Control Stop (core/events.py). -/
structure ControlStop where
  name : String
  distance : ℚ
  duration : ℚ
  latest_arrival : ℚ
deriving DecidableEq, Repr

/-- Speed limit along the route (core/events.py `SpeedLimit`). -/
structure SpeedLimit where
  distance : ℚ
  speed_limit : ℚ
deriving DecidableEq, Repr

/-- A distance-indexed event: the two variants the distance queue may hold.
The source stores these untyped and raises `NotImplementedError` on any
other variant; the typed embedding makes other variants unrepresentable. -/
inductive DistEvent where
  | stage (s : StageStop)
  | control (c : ControlStop)
deriving DecidableEq, Repr

/-- Key of a distance event. -/
def DistEvent.distance : DistEvent → ℚ
  | .stage s => s.distance
  | .control c => c.distance

/-- A time-indexed event: the four variants the time queue may hold
(core/events.py `StartOfDay`, `EndOfDay`, `StartGridCharge`, `EndGridCharge`). -/
inductive TimeEvent where
  | startOfDay (name : String) (time : ℚ)
  | endOfDay (name : String) (time : ℚ)
  | startGridCharge (time : ℚ)
  | endGridCharge (time : ℚ)
deriving DecidableEq, Repr

/-- Key of a time event. -/
def TimeEvent.time : TimeEvent → ℚ
  | .startOfDay _ t => t
  | .endOfDay _ t => t
  | .startGridCharge t => t
  | .endGridCharge t => t

/-- Battery related parameters (core/car.py `Battery`). -/
structure Battery where
  cell_esr : ℚ
  cells_in_series : ℤ
  cells_in_parallel : ℤ
  energy_per_cell : ℚ
deriving DecidableEq, Repr

/-- Car related parameters (core/car.py `Car`).  The source declares
`battery: Optional[Battery]`; `simulate` dereferences it unconditionally
before the loop, so runs are modelled for cars that carry a battery. -/
structure Car where
  mass : ℚ
  cda : ℚ
  crr : ℚ
  idle_power_loss : ℚ
  powertrain_efficiency : ℚ
  motor_efficiency : ℚ
  charger_efficiency : ℚ
  battery : Battery
deriving DecidableEq, Repr

/-- `Car.copy_with` as used by `simulate`: a field-for-field copy with the
`mass` field replaced (core/car.py lines 211-218, called with `mass=...`). -/
def Car.copy_with_mass (c : Car) (m : ℚ) : Car :=
  { c with mass := m }

/-- Information specific to a race (core/race.py `Race`).  The `route`
field of the source is unused by the embedded operations; the hacky
`get_location` method is part of `Env` (it evaluates `math.radians` of
fixed coordinates, a transcendental constant). -/
structure Race where
  distance_events : List DistEvent
  time_events : List TimeEvent
  speed_limits : List SpeedLimit

/-- SOC lookup table of core/car.py (136 descending samples). -/
def lookup_values : List ℚ :=
  [1.0, 0.999, 0.997, 0.9941, 0.9903, 0.9857, 0.9801, 0.9732, 0.9646,
   0.9539, 0.939, 0.9184, 0.8912, 0.863, 0.8418, 0.8279, 0.8169, 0.8072,
   0.7981, 0.7897, 0.7815, 0.7735, 0.7657, 0.7576, 0.7494, 0.7409, 0.7319,
   0.7221, 0.7118, 0.7004, 0.6878, 0.674, 0.6596, 0.6451, 0.631, 0.6178,
   0.6053, 0.593, 0.5814, 0.5702, 0.559, 0.5478, 0.5371, 0.5263, 0.5156,
   0.5052, 0.4949, 0.4844, 0.4742, 0.4639, 0.4533, 0.4425, 0.4316, 0.4199,
   0.4081, 0.3958, 0.3832, 0.3697, 0.3565, 0.3431, 0.3296, 0.3163, 0.3036,
   0.2912, 0.2796, 0.2688, 0.259, 0.2496, 0.2411, 0.2326, 0.223, 0.2124,
   0.2019, 0.1915, 0.1813, 0.1716, 0.1621, 0.1533, 0.1458, 0.1398, 0.1347,
   0.1301, 0.1259, 0.1217, 0.1176, 0.1139, 0.1103, 0.1066, 0.1032, 0.1,
   0.0968, 0.0936, 0.0906, 0.0877, 0.0848, 0.082, 0.0793, 0.0764, 0.0737,
   0.071, 0.0682, 0.0653, 0.0624, 0.0594, 0.0563, 0.0534, 0.0505, 0.0477,
   0.0452, 0.0428, 0.0406, 0.0384, 0.0363, 0.0342, 0.0321, 0.03, 0.0281,
   0.0261, 0.0243, 0.0225, 0.0207, 0.0191, 0.0175, 0.0159, 0.0144, 0.0129,
   0.0115, 0.0101, 0.0088, 0.0075, 0.0063, 0.005, 0.0039, 0.0027, 0.0016,
   0.0]

/-- The scan of `estimate_cell_voltage_from_soc`: starting from the
full-charge end, count how many leading table entries are strictly above
the query SOC (the source's `while index < len(lookup_values) and
soc < lookup_values[index]: index += 1`). -/
def scanSOCIndex : List ℚ → ℚ → ℕ
  | [], _ => 0
  | v :: rest, soc => if soc < v then scanSOCIndex rest soc + 1 else 0

/-- Estimate battery cell voltage from state of charge
(core/car.py `Battery.estimate_cell_voltage_from_soc`). -/
def Battery.estimate_cell_voltage_from_soc (_b : Battery) (soc : ℚ) : ℚ :=
  let stp : ℚ := 0.01
  let lookup_min_voltage : ℚ := 2.799
  let index : ℕ :=
    if soc < lookup_values.getLastD 0 then lookup_values.length - 1
    else scanSOCIndex lookup_values soc
  lookup_min_voltage +
    (((lookup_values.length : ℤ) - 1 - (index : ℤ) : ℤ) : ℚ) * stp

/-- Estimate battery pack voltage from SOC (core/car.py). -/
def Battery.estimate_battery_voltage_from_soc (b : Battery) (soc : ℚ) : ℚ :=
  b.estimate_cell_voltage_from_soc soc * (b.cells_in_series : ℚ)

/-- Maximum charge current given cell voltage
(core/functions.py `charge_current_limit_lookup`). -/
def charge_current_limit_lookup (cell_voltage : ℚ) : ℚ :=
  if cell_voltage < 4.0 then 65.0
  else if cell_voltage < 4.1 then 40.0
  else 20.0

/-- The index scan of `get_target_speed` (core/functions.py): advance while
the current distance is strictly below the tuple's start distance; running
past the end of the list is a Python `IndexError`, modelled as `none`. -/
def scanTargetSpeed : List (ℚ × ℚ) → ℚ → Option ℚ
  | [], _ => none
  | (d0, v) :: rest, d => if d < d0 then scanTargetSpeed rest d else some v

/-- Target speed at the current distance (core/functions.py
`get_target_speed`); `none` models the `IndexError` raised on an empty
list or a scan past the end. -/
def get_target_speed (target_speeds : List (ℚ × ℚ)) (distance : ℚ) : Option ℚ :=
  match target_speeds.getLast? with
  | none => none
  | some last => if distance ≥ last.1 then some last.2
                 else scanTargetSpeed target_speeds distance

/-- The index scan of `Race.determine_speed_limit` (core/race.py): advance
while the current distance is strictly greater than the entry's distance. -/
def scanSpeedLimit : List SpeedLimit → ℚ → Option ℚ
  | [], _ => none
  | sl :: rest, d => if d > sl.distance then scanSpeedLimit rest d
                     else some sl.speed_limit

/-- Speed limit at the given distance (core/race.py
`Race.determine_speed_limit`); `none` models the `IndexError` on an
empty speed-limit list. -/
def determine_speed_limit (speed_limits : List SpeedLimit) (distance : ℚ) : Option ℚ :=
  match speed_limits.getLast? with
  | none => none
  | some last => if distance ≥ last.distance then some last.speed_limit
                 else scanSpeedLimit speed_limits distance

/-- Standard gravity (core/earth.py `GRAVITY`). -/
def GRAVITY : ℚ := 9.807

/-- AC charge current (core/sim_constants.py). -/
def AC_CHARGE_CURRENT : ℚ := 30

/-- AC charge voltage (core/sim_constants.py). -/
def AC_CHARGE_VOLTAGE : ℚ := 230

/-- Regenerative braking factor (core/sim_constants.py `REGEN_FACTOR`). -/
def REGEN_FACTOR : ℚ := 0.6

/-- Rolling resistance force (core/physics.py `calculate_rolling_force`),
specialised at road angle 0 as `simulate` always calls it
(`math.cos 0 = 1`). -/
def calculate_rolling_force (mass accel crr : ℚ) : ℚ :=
  crr * (mass * accel) * 1

/-- Aerodynamic force (core/physics.py `calculate_aero_force`). -/
def calculate_aero_force (cda rho relative_speed : ℚ) : ℚ :=
  0.5 * cda * rho * relative_speed ^ 2

/-- Power to drive (core/physics.py `calculate_power_to_drive`),
specialised at road angle 0 and acceleration 0, exactly the arguments
`simulate` supplies (`math.sin 0 = 0`, `math.cos 0 = 1`). -/
def calculate_power_to_drive (car : Car) (vehicle_speed wind_speed rho soc : ℚ) : ℚ :=
  let gravity_force := GRAVITY * car.mass * 0
  let rolling_force := calculate_rolling_force car.mass GRAVITY car.crr
  let aero_force := calculate_aero_force car.cda rho (vehicle_speed - wind_speed)
  let accel_force := 0 * car.mass
  let total_power := gravity_force * vehicle_speed + rolling_force * vehicle_speed +
    aero_force * vehicle_speed + accel_force * vehicle_speed
  let motor_efficiency : ℚ := if soc > 0.2 then 0.95 else 0.8
  total_power / (motor_efficiency * car.powertrain_efficiency)

/-- The kinetic-energy correction term of `simulate`
(core/simulation.py lines 192-197): `0.5 * mass * (Δspeed)**2`, scaled by
`REGEN_FACTOR` on the `vehicle_speed <= prev_speed` branch.  The result is
subtracted from `state.energy` in the tick update. -/
def delta_energy_fn (mass prev_speed vehicle_speed : ℚ) : ℚ :=
  if vehicle_speed > prev_speed then
    0.5 * mass * (vehicle_speed - prev_speed) ^ 2
  else
    0.5 * mass * (vehicle_speed - prev_speed) ^ 2 * REGEN_FACTOR

/-- The distance-event while loop of `process_events`
(core/process_events.py lines 36-72): pop the front while it is due
(`state.distance >= event.distance`), replacing the race actions wholesale
per event; a due `StageStop` or `ControlStop` whose deadline has passed
returns `none` (the INFEASIBLE signal).  Returns the remaining queue, the
resulting race actions and the checkpoint time remaining. -/
def process_distance_events : List DistEvent → State → RaceActions → ℚ →
    Option (List DistEvent × RaceActions × ℚ)
  | [], _, rs, ctr => some ([], rs, ctr)
  | e :: rest, st, rs, ctr =>
    if st.distance ≥ e.distance then
      match e with
      | .stage s =>
        if st.time ≤ s.target_arrival then
          process_distance_events rest st
            ⟨false, true, false, true, false, false⟩ ctr
        else if st.time ≤ s.latest_arrival then
          process_distance_events rest st
            ⟨false, true, false, true, false, false⟩ ctr
        else none
      | .control c =>
        if st.time ≤ c.latest_arrival then
          process_distance_events rest st
            ⟨false, true, false, true, false, true⟩ c.duration
        else none
    else some (e :: rest, rs, ctr)

/-- The time-event while loop of `process_events`
(core/process_events.py lines 74-107): pop the front while it is due
(`state.time >= event.time`); grid-charge events copy the current actions
changing only `grid_charging`.  Returns the remaining queue and actions. -/
def process_time_events : List TimeEvent → State → RaceActions →
    List TimeEvent × RaceActions
  | [], _, rs => ([], rs)
  | e :: rest, st, rs =>
    if st.time ≥ e.time then
      match e with
      | .startOfDay _ _ =>
        process_time_events rest st ⟨true, true, true, false, false, true⟩
      | .endOfDay _ _ =>
        process_time_events rest st ⟨false, true, false, true, false, false⟩
      | .startGridCharge _ =>
        process_time_events rest st { rs with grid_charging := true }
      | .endGridCharge _ =>
        process_time_events rest st { rs with grid_charging := false }
    else (e :: rest, rs)

/-- `process_events` (core/process_events.py): drain the due distance
events, then the due time events; `none` is the INFEASIBLE signal.  The
Python function mutates the two queue lists in place; the embedding returns
the remaining queues alongside the new actions and checkpoint time. -/
def process_events (distance_queue : List DistEvent) (time_queue : List TimeEvent)
    (state : State) (race_state : RaceActions) (checkpoint_time_remaining : ℚ) :
    Option (List DistEvent × List TimeEvent × RaceActions × ℚ) :=
  match process_distance_events distance_queue state race_state
      checkpoint_time_remaining with
  | none => none
  | some (dq, rs, ctr) =>
    let (tq, rs') := process_time_events time_queue state rs
    some (dq, tq, rs', ctr)

/-- The injected and external pure collaborators of `simulate`:
`wind_func`, `array_model` and `end_simulation` are the caller-supplied
functions; `get_location` and `sun_position`/`get_sun_power` stand for the
route and solar collaborators (transcendental formulas in the source); and
`air_density` is the value of `calculate_air_density(30.0, 0.0, 0.3)`, the
fixed arguments `simulate` uses (the formula contains `math.pow(10.0, ·)`). -/
structure Env where
  get_location : ℚ → ℚ × ℚ
  sun_position : ℚ → ℚ → ℚ → ℚ
  get_sun_power : ℚ → ℚ
  wind_func : ℚ → ℚ → ℚ
  array_model : ℚ → ℚ → Bool → ℚ
  end_simulation : State → Option Bool
  air_density : ℚ

/-- A log record: a snapshot of the state, the instantaneous array power
and the vehicle speed, as appended to `logged_states`. -/
abbrev LogRec := State × ℚ × ℚ

/-- The mutable loop variables of `simulate`'s `while True:` loop. -/
structure LoopState where
  distQ : List DistEvent
  timeQ : List TimeEvent
  st : State
  race_state : RaceActions
  checkpoint_time_remaining : ℚ
  vehicle_speed : ℚ
  total_grid_energy : ℚ
  log : List LogRec

/-- Result of one pass through the loop body: an early `return` from
`simulate`, a Python exception from an out-of-range list index in one of
the speed lookups, or the next loop state. -/
inductive StepResult where
  | ret (verdict : Bool) (st : State) (log : List LogRec)
  | crash (st : State) (log : List LogRec)
  | cont (ls : LoopState)

/-- Whether the car is on in the current tick (core/simulation.py lines
86-98): the effective grid-charging flag is the post-event one gated by
`soc < 1.0`, and the car is on when the sun is up or grid charging. -/
def tick_car_is_on (env : Env) (st : State) (rs : RaceActions) : Bool :=
  let grid_charging := rs.grid_charging && decide (st.soc < 1.0)
  let loc := env.get_location st.distance
  let sun_altitude := env.sun_position st.time loc.2 loc.1
  decide (sun_altitude > 0.0) || grid_charging

/-- The checkpoint-service logic of the tick (core/simulation.py lines
100-119): while checkpoint time remains during race hours, force a
non-driving action set and count the remaining time down by `dt`; else,
during race hours, resume the full driving action set. -/
def checkpoint_logic (rs : RaceActions) (ctr dt : ℚ) : RaceActions × ℚ :=
  if ctr > 0.0 ∧ rs.race_hours then
    (⟨false, rs.charging, false, rs.normalized, false, true⟩, ctr - dt)
  else if rs.race_hours then
    (⟨true, true, true, false, false, true⟩, ctr)
  else (rs, ctr)

/-- The car-on branch of the tick (core/simulation.py lines 131-216):
drive power, battery voltage/current/losses, grid and array power, the
kinetic-energy correction, and the energy/distance/SOC/time update with a
log append.  `rs0` is the action set as returned by `process_events`
(which gates grid charging), `rs`/`ctr` the post-checkpoint-logic values.
The sun altitude is the same pure expression the tick's `car_is_on` test
evaluates. -/
def tick_on (env : Env) (car : Car) (battery_esr battery_size dt : ℚ)
    (ls : LoopState) (dq : List DistEvent) (tq : List TimeEvent)
    (rs0 rs : RaceActions) (ctr vehicle_speed : ℚ) : LoopState :=
  let grid_charging := rs0.grid_charging && decide (ls.st.soc < 1.0)
  let loc := env.get_location ls.st.distance
  let sun_altitude := env.sun_position ls.st.time loc.2 loc.1
  let irradiance := env.get_sun_power sun_altitude
  let wind := env.wind_func ls.st.distance ls.st.time
  let rho := env.air_density
  let prev_speed := ls.vehicle_speed
  let ptd := calculate_power_to_drive car vehicle_speed wind rho ls.st.soc
  let cell_voltage := car.battery.estimate_cell_voltage_from_soc ls.st.soc
  let battery_voltage := cell_voltage * (car.battery.cells_in_series : ℚ)
  let max_grid_dc_current := charge_current_limit_lookup cell_voltage
  let dc_grid_current := min ((AC_CHARGE_CURRENT * AC_CHARGE_VOLTAGE *
    car.charger_efficiency) / battery_voltage) max_grid_dc_current
  let grid_power := if grid_charging then dc_grid_current * battery_voltage
    else 0.0
  let array_power := if sun_altitude > 0.0 then
    env.array_model irradiance sun_altitude rs.normalized else 0.0
  let battery_power := grid_power + array_power - ptd - car.idle_power_loss
  let battery_current := battery_power / battery_voltage
  let battery_losses := battery_current ^ 2 * battery_esr
  let delta_energy := delta_energy_fn car.mass prev_speed vehicle_speed
  let net_power := battery_power - battery_losses
  let st' : State := ⟨ls.st.distance + vehicle_speed * dt,
    ls.st.energy + net_power * dt - delta_energy,
    (ls.st.energy + net_power * dt - delta_energy) / battery_size,
    ls.st.time + dt⟩
  { distQ := dq, timeQ := tq, st := st', race_state := rs,
    checkpoint_time_remaining := ctr, vehicle_speed := vehicle_speed,
    total_grid_energy := ls.total_grid_energy + grid_power * dt,
    log := ls.log ++ [(st', array_power, vehicle_speed)] }

/-- The car-off branch of the tick (core/simulation.py lines 218-220):
only the time advances; no distance, energy or log entry. -/
def tick_off (ls : LoopState) (dq : List DistEvent) (tq : List TimeEvent)
    (rs : RaceActions) (ctr vehicle_speed dt : ℚ) : LoopState :=
  { distQ := dq, timeQ := tq,
    st := { ls.st with time := ls.st.time + dt },
    race_state := rs, checkpoint_time_remaining := ctr,
    vehicle_speed := vehicle_speed,
    total_grid_energy := ls.total_grid_energy, log := ls.log }

/-- One pass through the body of `simulate`'s `while True:` loop
(core/simulation.py lines 72-220), faithful to the source's statement
order: process events (returning `(False, state, log)` when infeasible),
gate grid charging on `soc < 1.0`, consult the termination predicate,
resolve location and sun altitude, apply the checkpoint-service logic,
resolve the speed limit and target speed, and then either perform the full
update with a log append (car on) or advance only the time (car off). -/
def step (env : Env) (race : Race) (car : Car) (battery_esr battery_size : ℚ)
    (target_speeds : List (ℚ × ℚ)) (dt : ℚ) (ls : LoopState) : StepResult :=
  match process_events ls.distQ ls.timeQ ls.st ls.race_state
      ls.checkpoint_time_remaining with
  | none => .ret false ls.st ls.log
  | some (dq, tq, rs0, ctr0) =>
    match env.end_simulation ls.st with
    | some verdict => .ret verdict ls.st ls.log
    | none =>
      let rsc := checkpoint_logic rs0 ctr0 dt
      match determine_speed_limit race.speed_limits ls.st.distance with
      | none => .crash ls.st ls.log
      | some speed_limit =>
        match get_target_speed target_speeds ls.st.distance with
        | none => .crash ls.st ls.log
        | some sched_speed =>
          let target_speed := min speed_limit sched_speed
          let vehicle_speed := if rsc.1.driving then target_speed else 0.0
          if tick_car_is_on env ls.st rs0 then
            .cont (tick_on env car battery_esr battery_size dt ls dq tq
              rs0 rsc.1 rsc.2 vehicle_speed)
          else
            .cont (tick_off ls dq tq rsc.1 rsc.2 vehicle_speed dt)

/-- Result of running the loop for a bounded number of ticks: a `return`
from `simulate`, a modelled Python exception, or the loop state after the
fuel is exhausted (the source loop itself has no tick ceiling). -/
inductive RunResult where
  | done (verdict : Bool) (st : State) (log : List LogRec)
  | crashed (st : State) (log : List LogRec)
  | fuelOut (ls : LoopState)

/-- Trajectory log carried by a run result. -/
def RunResult.log : RunResult → List LogRec
  | .done _ _ l => l
  | .crashed _ l => l
  | .fuelOut ls => ls.log

/-- Current / final state carried by a run result. -/
def RunResult.state : RunResult → State
  | .done _ st _ => st
  | .crashed st _ => st
  | .fuelOut ls => ls.st

/-- Iterate `step` for at most `fuel` ticks. -/
def runAux (env : Env) (race : Race) (car : Car) (battery_esr battery_size : ℚ)
    (target_speeds : List (ℚ × ℚ)) (dt : ℚ) : ℕ → LoopState → RunResult
  | 0, ls => .fuelOut ls
  | fuel + 1, ls =>
    match step env race car battery_esr battery_size target_speeds dt ls with
    | .ret verdict st log => .done verdict st log
    | .crash st log => .crashed st log
    | .cont ls' => runAux env race car battery_esr battery_size target_speeds dt fuel ls'

/-- The body of `simulate` after the passenger-mass adjustment
(core/simulation.py lines 60-220): deep-copy the state (a value copy in
the embedding), seed the log with `(state, 0.0, 0.0)`, compute the pack
ESR, copy the event queues out of the race, and run the loop. -/
def simulate_from (env : Env) (race : Race) (car : Car) (battery_size : ℚ)
    (state : State) (race_state : RaceActions) (target_speeds : List (ℚ × ℚ))
    (checkpoint_time_remaining vehicle_speed dt : ℚ) (fuel : ℕ) : RunResult :=
  let battery_esr := car.battery.cell_esr *
    ((car.battery.cells_in_series : ℚ) / (car.battery.cells_in_parallel : ℚ))
  runAux env race car battery_esr battery_size target_speeds dt fuel
    { distQ := race.distance_events, timeQ := race.time_events, st := state,
      race_state := race_state,
      checkpoint_time_remaining := checkpoint_time_remaining,
      vehicle_speed := vehicle_speed, total_grid_energy := 0.0,
      log := [(state, 0.0, 0.0)] }

/-- `simulate` (core/simulation.py): add the mass of the two passengers to
the car, then run the loop.  `fuel` bounds the number of ticks of the
source's unbounded loop. -/
def simulate (env : Env) (race : Race) (car : Car) (battery_size : ℚ)
    (state : State) (race_state : RaceActions) (target_speeds : List (ℚ × ℚ))
    (checkpoint_time_remaining vehicle_speed dt : ℚ) (fuel : ℕ) : RunResult :=
  let car := car.copy_with_mass (car.mass + 2 * 80.0)
  simulate_from env race car battery_size state race_state target_speeds
    checkpoint_time_remaining vehicle_speed dt fuel

/-- Entries before the scan's stopping index are strictly above the query
SOC, and the entry at the stopping index (when in range) is at most it. -/
lemma scanSOCIndex_spec (soc : ℚ) (l : List ℚ) :
    (∀ j < scanSOCIndex l soc, soc < l.getD j 0) ∧
    (scanSOCIndex l soc < l.length → l.getD (scanSOCIndex l soc) 0 ≤ soc) := by
  induction l with
  | nil => simp [scanSOCIndex]
  | cons v rest ih =>
    by_cases h : soc < v
    · simp only [scanSOCIndex, if_pos h]
      constructor
      · intro j hj
        cases j with
        | zero => simpa using h
        | succ j =>
          simpa using ih.1 j (by omega)
      · intro hlen
        simpa using ih.2 (by simpa using hlen)
    · simp only [scanSOCIndex, if_neg h]
      exact ⟨fun j hj => absurd hj (by omega), fun _ => by simpa using not_lt.mp h⟩

/-- If some table entry is at most the query SOC, the scan stops inside
the table. -/
lemma scanSOCIndex_lt_length (soc : ℚ) (l : List ℚ) (h : ∃ v ∈ l, v ≤ soc) :
    scanSOCIndex l soc < l.length := by
  induction l with
  | nil => simp at h
  | cons v rest ih =>
    by_cases hv : soc < v
    · simp only [scanSOCIndex, if_pos hv, List.length_cons]
      obtain ⟨w, hw, hws⟩ := h
      rcases List.mem_cons.mp hw with rfl | hw'
      · exact absurd hws (not_le.mpr hv)
      · exact Nat.succ_lt_succ (ih ⟨w, hw', hws⟩)
    · simp [scanSOCIndex, if_neg hv]

/-- The SOC table has 136 entries (the specification says 141). -/
lemma lookup_values_length : lookup_values.length = 136 := by rfl

/-- The lowest tabulated SOC is 0. -/
lemma lookup_values_last : lookup_values.getLastD 0 = 0 := by
  norm_num [lookup_values]

/-- C8 counterexample: the SOC table has 136 entries, not the 141 the
claim states, and the top-of-table voltage is `2.799 + 135 * 0.01 = 4.149`
V, not `4.199` V. -/
theorem c8_cell_voltage_lookup_counterexample :
    lookup_values.length = 136 ∧ lookup_values.length ≠ 141 ∧
    (Battery.mk 1 1 1 1).estimate_cell_voltage_from_soc 1.0 = 4.149 ∧
    (Battery.mk 1 1 1 1).estimate_cell_voltage_from_soc 1.0 ≠ 4.199 := by
  have hscan1 : scanSOCIndex lookup_values 1 = 0 := by
    norm_num [scanSOCIndex, lookup_values]
  refine ⟨lookup_values_length, by norm_num [lookup_values_length], ?_, ?_⟩ <;>
    · unfold Battery.estimate_cell_voltage_from_soc
      rw [lookup_values_last]
      norm_num [hscan1, lookup_values_length]

/-- C8 (amended): `estimate_cell_voltage_from_soc` scans the 136-entry
descending SOC table from the full-charge end and returns
`2.799 + (135 - index) * 0.01` volts for the first table entry whose SOC
is at most the query SOC (no interpolation); it returns
`2.799 + 135 * 0.01 = 4.149` V for `soc = 1.0`, `2.799` V for `soc = 0.0`,
and clamps any SOC below the lowest tabulated value (0.0) to `2.799` V. -/
theorem c8_cell_voltage_lookup :
    lookup_values.length = 136 ∧
    (∀ b : Battery, b.estimate_cell_voltage_from_soc 1.0 = 2.799 + 135 * 0.01 ∧
      b.estimate_cell_voltage_from_soc 1.0 = 4.149) ∧
    (∀ b : Battery, b.estimate_cell_voltage_from_soc 0.0 = 2.799) ∧
    (∀ (b : Battery) (soc : ℚ), soc < 0 →
      b.estimate_cell_voltage_from_soc soc = 2.799) ∧
    (∀ (b : Battery) (soc : ℚ), ¬ soc < 0 →
      scanSOCIndex lookup_values soc < 136 ∧
      lookup_values.getD (scanSOCIndex lookup_values soc) 0 ≤ soc ∧
      (∀ j < scanSOCIndex lookup_values soc, soc < lookup_values.getD j 0) ∧
      b.estimate_cell_voltage_from_soc soc =
        2.799 + ((135 - (scanSOCIndex lookup_values soc : ℤ) : ℤ) : ℚ) * 0.01) := by
  have hscan1 : scanSOCIndex lookup_values 1 = 0 := by
    norm_num [scanSOCIndex, lookup_values]
  have hscan0 : scanSOCIndex lookup_values 0 = 135 := by
    norm_num [scanSOCIndex, lookup_values]
  refine ⟨lookup_values_length, ?_, ?_, ?_, ?_⟩
  · intro b
    constructor <;>
      · unfold Battery.estimate_cell_voltage_from_soc
        rw [lookup_values_last]
        norm_num [hscan1, lookup_values_length]
  · intro b
    unfold Battery.estimate_cell_voltage_from_soc
    rw [lookup_values_last]
    norm_num [hscan0, lookup_values_length]
  · intro b soc h
    unfold Battery.estimate_cell_voltage_from_soc
    rw [lookup_values_last, if_pos h]
    norm_num [lookup_values_length]
  · intro b soc h
    have hmem : (0 : ℚ) ∈ lookup_values := by norm_num [lookup_values]
    have hlt : scanSOCIndex lookup_values soc < 136 := by
      have := scanSOCIndex_lt_length soc lookup_values ⟨0, hmem, not_lt.mp h⟩
      simpa [lookup_values_length] using this
    obtain ⟨h1, h2⟩ := scanSOCIndex_spec soc lookup_values
    refine ⟨hlt, h2 (by simpa [lookup_values_length] using hlt), h1, ?_⟩
    unfold Battery.estimate_cell_voltage_from_soc
    rw [lookup_values_last, if_neg h]
    norm_num [lookup_values_length]

/-- C8 witness: the amended theorem applied at the concrete inputs
`soc = -1` (below the lowest tabulated value) and `soc = 1` (top of
table). -/
theorem c8_cell_voltage_lookup_witness :
    ((-1 : ℚ) < 0 ∧
      (Battery.mk 1 1 1 1).estimate_cell_voltage_from_soc (-1) = 2.799) ∧
    (¬ (1 : ℚ) < 0 ∧
      scanSOCIndex lookup_values 1 < 136 ∧
      lookup_values.getD (scanSOCIndex lookup_values 1) 0 ≤ 1 ∧
      (∀ j < scanSOCIndex lookup_values 1, (1 : ℚ) < lookup_values.getD j 0) ∧
      (Battery.mk 1 1 1 1).estimate_cell_voltage_from_soc 1 =
        2.799 + ((135 - (scanSOCIndex lookup_values 1 : ℤ) : ℤ) : ℚ) * 0.01) :=
  ⟨⟨by norm_num, c8_cell_voltage_lookup.2.2.2.1 (Battery.mk 1 1 1 1) (-1) (by norm_num)⟩,
   by norm_num, c8_cell_voltage_lookup.2.2.2.2 (Battery.mk 1 1 1 1) 1 (by norm_num)⟩

/-- C1: the kinetic-energy correction the code actually applies.  For an
acceleration from 10 m/s to 20 m/s at mass 100 kg the code charges
`0.5 * 100 * (20 - 10)^2 = 5000` J, not the full kinetic-energy delta
`0.5 * 100 * (20^2 - 10^2) = 15000` J; for the matching deceleration it
charges a further positive `3000` J (the term is subtracted from
`state.energy`), so deceleration never recovers energy; and the
accel/decel asymmetry is `2000` J, not the claimed
`0.6 * 0.5 * 100 * (20^2 - 10^2) = 9000` J. -/
theorem c1_kinetic_energy_code_bug :
    delta_energy_fn 100 10 20 = 5000 ∧
    (0.5 : ℚ) * 100 * (20 ^ 2 - 10 ^ 2) = 15000 ∧
    delta_energy_fn 100 10 20 ≠ 0.5 * 100 * (20 ^ 2 - 10 ^ 2) ∧
    delta_energy_fn 100 20 10 = 3000 ∧
    0 < delta_energy_fn 100 20 10 ∧
    REGEN_FACTOR * (0.5 * 100 * (20 ^ 2 - 10 ^ 2)) = 9000 ∧
    delta_energy_fn 100 10 20 - delta_energy_fn 100 20 10 ≠
      REGEN_FACTOR * (0.5 * 100 * (20 ^ 2 - 10 ^ 2)) := by
  norm_num [delta_energy_fn, REGEN_FACTOR]

/-- A successful distance phase leaves exactly the maximal not-yet-due
suffix of the queue: the remaining queue is `dropWhile` of the due test,
and the popped prefix consists of due events only. -/
lemma process_distance_events_spec (st : State) :
    ∀ (q : List DistEvent) (rs : RaceActions) (ctr : ℚ)
      (dq' : List DistEvent) (rs' : RaceActions) (ctr' : ℚ),
    process_distance_events q st rs ctr = some (dq', rs', ctr') →
    dq' = q.dropWhile (fun e => decide (e.distance ≤ st.distance)) ∧
    ∃ fired, q = fired ++ dq' ∧ ∀ e ∈ fired, e.distance ≤ st.distance := by
  intro q
  induction q with
  | nil =>
    intro rs ctr dq' rs' ctr' h
    simp only [process_distance_events, Option.some.injEq, Prod.mk.injEq] at h
    obtain ⟨h1, _, _⟩ := h
    subst h1
    exact ⟨by simp, [], by simp, by simp⟩
  | cons e rest ih =>
    intro rs ctr dq' rs' ctr' h
    by_cases hdue : st.distance ≥ e.distance
    · have hd : e.distance ≤ st.distance := hdue
      cases e with
      | stage s =>
        rw [process_distance_events, if_pos hdue] at h
        by_cases h1 : st.time ≤ s.target_arrival
        · rw [if_pos h1] at h
          obtain ⟨hdrop, fired, hsplit, hfired⟩ := ih _ _ _ _ _ h
          refine ⟨by simpa [List.dropWhile_cons, hd] using hdrop,
            DistEvent.stage s :: fired, by simpa using hsplit, ?_⟩
          intro x hx
          rcases List.mem_cons.mp hx with rfl | hx'
          · exact hd
          · exact hfired x hx'
        · rw [if_neg h1] at h
          by_cases h2 : st.time ≤ s.latest_arrival
          · rw [if_pos h2] at h
            obtain ⟨hdrop, fired, hsplit, hfired⟩ := ih _ _ _ _ _ h
            refine ⟨by simpa [List.dropWhile_cons, hd] using hdrop,
              DistEvent.stage s :: fired, by simpa using hsplit, ?_⟩
            intro x hx
            rcases List.mem_cons.mp hx with rfl | hx'
            · exact hd
            · exact hfired x hx'
          · rw [if_neg h2] at h
            exact absurd h (by simp)
      | control c =>
        rw [process_distance_events, if_pos hdue] at h
        by_cases h1 : st.time ≤ c.latest_arrival
        · rw [if_pos h1] at h
          obtain ⟨hdrop, fired, hsplit, hfired⟩ := ih _ _ _ _ _ h
          refine ⟨by simpa [List.dropWhile_cons, hd] using hdrop,
            DistEvent.control c :: fired, by simpa using hsplit, ?_⟩
          intro x hx
          rcases List.mem_cons.mp hx with rfl | hx'
          · exact hd
          · exact hfired x hx'
        · rw [if_neg h1] at h
          exact absurd h (by simp)
    · have hnd : ¬ e.distance ≤ st.distance := fun hc => hdue hc
      have hpd : process_distance_events (e :: rest) st rs ctr =
          some (e :: rest, rs, ctr) := by
        cases e <;> rw [process_distance_events, if_neg hdue]
      rw [hpd] at h
      simp only [Option.some.injEq, Prod.mk.injEq] at h
      obtain ⟨h1, _, _⟩ := h
      subst h1
      exact ⟨by simp [List.dropWhile_cons, hnd], [], by simp, by simp⟩

/-- The time phase leaves exactly the maximal not-yet-due suffix of the
time queue, and the popped prefix consists of due events only. -/
lemma process_time_events_spec (st : State) :
    ∀ (q : List TimeEvent) (rs : RaceActions),
    (process_time_events q st rs).1 =
      q.dropWhile (fun e => decide (e.time ≤ st.time)) ∧
    ∃ fired, q = fired ++ (process_time_events q st rs).1 ∧
      ∀ e ∈ fired, e.time ≤ st.time := by
  intro q
  induction q with
  | nil => intro rs; exact ⟨rfl, [], rfl, by simp⟩
  | cons e rest ih =>
    intro rs
    by_cases hdue : st.time ≥ e.time
    · have hd : e.time ≤ st.time := hdue
      have key : ∀ rs' : RaceActions,
          process_time_events (e :: rest) st rs =
            process_time_events rest st rs' →
          (process_time_events (e :: rest) st rs).1 =
            (e :: rest).dropWhile (fun x => decide (x.time ≤ st.time)) ∧
          ∃ fired, (e :: rest) = fired ++ (process_time_events (e :: rest) st rs).1 ∧
            ∀ x ∈ fired, x.time ≤ st.time := by
        intro rs' heq
        obtain ⟨hdrop, fired, hsplit, hfired⟩ := ih rs'
        rw [heq]
        refine ⟨by simpa [List.dropWhile_cons, hd] using hdrop,
          e :: fired, by simpa using hsplit, ?_⟩
        intro x hx
        rcases List.mem_cons.mp hx with rfl | hx'
        · exact hd
        · exact hfired x hx'
      cases e with
      | startOfDay n t => exact key _ (by rw [process_time_events, if_pos hdue])
      | endOfDay n t => exact key _ (by rw [process_time_events, if_pos hdue])
      | startGridCharge t => exact key _ (by rw [process_time_events, if_pos hdue])
      | endGridCharge t => exact key _ (by rw [process_time_events, if_pos hdue])
    · have hnd : ¬ e.time ≤ st.time := fun hc => hdue hc
      have hpt : process_time_events (e :: rest) st rs = (e :: rest, rs) := by
        cases e <;> rw [process_time_events, if_neg hdue]
      rw [hpt]
      exact ⟨by simp [List.dropWhile_cons, hnd], [], by simp, by simp⟩

/-- A successful `process_events` drains the due prefix of both queues:
the remaining queues are the `dropWhile` suffixes and the popped prefixes
are all due. -/
lemma process_events_spec (dq : List DistEvent) (tq : List TimeEvent)
    (st : State) (rs : RaceActions) (ctr : ℚ)
    (dq' : List DistEvent) (tq' : List TimeEvent) (rs' : RaceActions) (ctr' : ℚ)
    (h : process_events dq tq st rs ctr = some (dq', tq', rs', ctr')) :
    (dq' = dq.dropWhile (fun e => decide (e.distance ≤ st.distance)) ∧
      ∃ fired, dq = fired ++ dq' ∧ ∀ e ∈ fired, e.distance ≤ st.distance) ∧
    (tq' = tq.dropWhile (fun e => decide (e.time ≤ st.time)) ∧
      ∃ fired, tq = fired ++ tq' ∧ ∀ e ∈ fired, e.time ≤ st.time) := by
  unfold process_events at h
  cases hpd : process_distance_events dq st rs ctr with
  | none => rw [hpd] at h; exact absurd h (by simp)
  | some r =>
    obtain ⟨dq₁, rs₁, ctr₁⟩ := r
    rw [hpd] at h
    simp only [Option.some.injEq, Prod.mk.injEq] at h
    obtain ⟨hdq, htq, _, _⟩ := h
    obtain ⟨hdrop, hfired⟩ := process_distance_events_spec st dq rs ctr dq₁ rs₁ ctr₁ hpd
    obtain ⟨hdropt, hfiredt⟩ := process_time_events_spec st tq rs₁
    subst hdq
    constructor
    · exact ⟨hdrop, hfired⟩
    · rw [← htq]
      exact ⟨hdropt, hfiredt⟩

/-- A successful target-speed scan returns the speed of some schedule
entry. -/
lemma scanTargetSpeed_mem :
    ∀ (ts : List (ℚ × ℚ)) (d v : ℚ), scanTargetSpeed ts d = some v →
    ∃ p ∈ ts, v = p.2 := by
  intro ts
  induction ts with
  | nil => intro d v h; exact absurd h (by simp [scanTargetSpeed])
  | cons p rest ih =>
    intro d v h
    obtain ⟨d0, s0⟩ := p
    rw [scanTargetSpeed] at h
    by_cases hlt : d < d0
    · rw [if_pos hlt] at h
      obtain ⟨q, hq, hv⟩ := ih d v h
      exact ⟨q, List.mem_cons_of_mem _ hq, hv⟩
    · rw [if_neg hlt] at h
      simp only [Option.some.injEq] at h
      exact ⟨(d0, s0), List.mem_cons_self _ _, h.symm⟩

/-- A successful `get_target_speed` returns the speed of some schedule
entry. -/
lemma get_target_speed_mem (ts : List (ℚ × ℚ)) (d v : ℚ)
    (h : get_target_speed ts d = some v) : ∃ p ∈ ts, v = p.2 := by
  unfold get_target_speed at h
  cases hl : ts.getLast? with
  | none => rw [hl] at h; exact absurd h (by simp)
  | some last =>
    simp only [hl] at h
    by_cases hge : d ≥ last.1
    · rw [if_pos hge] at h
      simp only [Option.some.injEq] at h
      exact ⟨last, List.mem_of_mem_getLast? (by simp [hl]), h.symm⟩
    · rw [if_neg hge] at h
      exact scanTargetSpeed_mem ts d v h

/-- A successful speed-limit scan returns the limit of some entry. -/
lemma scanSpeedLimit_mem :
    ∀ (sls : List SpeedLimit) (d v : ℚ), scanSpeedLimit sls d = some v →
    ∃ sl ∈ sls, v = sl.speed_limit := by
  intro sls
  induction sls with
  | nil => intro d v h; exact absurd h (by simp [scanSpeedLimit])
  | cons sl rest ih =>
    intro d v h
    rw [scanSpeedLimit] at h
    by_cases hgt : d > sl.distance
    · rw [if_pos hgt] at h
      obtain ⟨q, hq, hv⟩ := ih d v h
      exact ⟨q, List.mem_cons_of_mem _ hq, hv⟩
    · rw [if_neg hgt] at h
      simp only [Option.some.injEq] at h
      exact ⟨sl, List.mem_cons_self _ _, h.symm⟩

/-- A successful `determine_speed_limit` returns the limit of some entry. -/
lemma determine_speed_limit_mem (sls : List SpeedLimit) (d v : ℚ)
    (h : determine_speed_limit sls d = some v) : ∃ sl ∈ sls, v = sl.speed_limit := by
  unfold determine_speed_limit at h
  cases hl : sls.getLast? with
  | none => rw [hl] at h; exact absurd h (by simp)
  | some last =>
    simp only [hl] at h
    by_cases hge : d ≥ last.distance
    · rw [if_pos hge] at h
      simp only [Option.some.injEq] at h
      exact ⟨last, List.mem_of_mem_getLast? (by simp [hl]), h.symm⟩
    · rw [if_neg hge] at h
      exact scanSpeedLimit_mem sls d v h

/-- Complete characterization of one loop pass: the event processor may
signal infeasibility (the tick returns verdict `false` with the current
state and log), else the termination predicate may decide the run, else a
speed lookup may raise, else the tick continues with the car-on update or
the car-off update according to `tick_car_is_on`. -/
lemma step_spec (env : Env) (race : Race) (car : Car) (esr bs : ℚ)
    (ts : List (ℚ × ℚ)) (dt : ℚ) (ls : LoopState) :
    (process_events ls.distQ ls.timeQ ls.st ls.race_state
        ls.checkpoint_time_remaining = none ∧
      step env race car esr bs ts dt ls = .ret false ls.st ls.log) ∨
    (∃ dq tq rs0 ctr0, process_events ls.distQ ls.timeQ ls.st ls.race_state
        ls.checkpoint_time_remaining = some (dq, tq, rs0, ctr0) ∧
      ((∃ v, env.end_simulation ls.st = some v ∧
          step env race car esr bs ts dt ls = .ret v ls.st ls.log) ∨
       (env.end_simulation ls.st = none ∧
        ((determine_speed_limit race.speed_limits ls.st.distance = none ∧
            step env race car esr bs ts dt ls = .crash ls.st ls.log) ∨
         (∃ sl, determine_speed_limit race.speed_limits ls.st.distance = some sl ∧
          ((get_target_speed ts ls.st.distance = none ∧
              step env race car esr bs ts dt ls = .crash ls.st ls.log) ∨
           (∃ sv, get_target_speed ts ls.st.distance = some sv ∧
            ∃ v, v = (if (checkpoint_logic rs0 ctr0 dt).1.driving
                      then min sl sv else 0.0) ∧
            ((tick_car_is_on env ls.st rs0 = true ∧
               step env race car esr bs ts dt ls =
                 .cont (tick_on env car esr bs dt ls dq tq rs0
                   (checkpoint_logic rs0 ctr0 dt).1
                   (checkpoint_logic rs0 ctr0 dt).2 v)) ∨
             (tick_car_is_on env ls.st rs0 = false ∧
               step env race car esr bs ts dt ls =
                 .cont (tick_off ls dq tq (checkpoint_logic rs0 ctr0 dt).1
                   (checkpoint_logic rs0 ctr0 dt).2 v dt)))))))))) := by
  unfold step
  cases hpe : process_events ls.distQ ls.timeQ ls.st ls.race_state
      ls.checkpoint_time_remaining with
  | none => exact Or.inl ⟨rfl, rfl⟩
  | some r =>
    obtain ⟨dq, tq, rs0, ctr0⟩ := r
    refine Or.inr ⟨dq, tq, rs0, ctr0, rfl, ?_⟩
    cases hes : env.end_simulation ls.st with
    | some v => exact Or.inl ⟨v, rfl, rfl⟩
    | none =>
      refine Or.inr ⟨rfl, ?_⟩
      cases hsl : determine_speed_limit race.speed_limits ls.st.distance with
      | none => exact Or.inl ⟨rfl, rfl⟩
      | some sl =>
        refine Or.inr ⟨sl, rfl, ?_⟩
        cases hts : get_target_speed ts ls.st.distance with
        | none => exact Or.inl ⟨rfl, rfl⟩
        | some sv =>
          refine Or.inr ⟨sv, rfl, ?_⟩
          refine ⟨_, rfl, ?_⟩
          by_cases hon : tick_car_is_on env ls.st rs0 = true
          · refine Or.inl ⟨hon, ?_⟩
            simp only [hon]
            rfl
          · simp only [Bool.not_eq_true] at hon
            refine Or.inr ⟨hon, ?_⟩
            simp only [hon]
            rfl

/-- Coarse postcondition of one loop pass: an early return or crash hands
back the current state and log unchanged; a continuing tick advances the
time by exactly `dt`, consumes a due prefix of each queue, and either
leaves distance/energy/SOC/log untouched (car off) or appends exactly one
log record holding the new state, moves the distance by
`vehicle_speed * dt`, and re-derives the SOC as `energy / battery_size`
(car on); the tick's vehicle speed is `0` or `min limit schedule` for an
entry of the speed-limit list and of the target-speed schedule. -/
lemma step_post (env : Env) (race : Race) (car : Car) (esr bs : ℚ)
    (ts : List (ℚ × ℚ)) (dt : ℚ) (ls : LoopState) :
    (∃ v, step env race car esr bs ts dt ls = .ret v ls.st ls.log) ∨
    (step env race car esr bs ts dt ls = .crash ls.st ls.log) ∨
    (∃ ls', step env race car esr bs ts dt ls = .cont ls' ∧
      ls'.st.time = ls.st.time + dt ∧
      (∃ fd, ls.distQ = fd ++ ls'.distQ ∧ ∀ e ∈ fd, e.distance ≤ ls.st.distance) ∧
      (∃ ft, ls.timeQ = ft ++ ls'.timeQ ∧ ∀ e ∈ ft, e.time ≤ ls.st.time) ∧
      ((ls'.log = ls.log ∧ ls'.st.distance = ls.st.distance ∧
        ls'.st.energy = ls.st.energy ∧ ls'.st.soc = ls.st.soc) ∨
       (∃ ap, ls'.log = ls.log ++ [(ls'.st, ap, ls'.vehicle_speed)] ∧
        ls'.st.distance = ls.st.distance + ls'.vehicle_speed * dt ∧
        ls'.st.soc = ls'.st.energy / bs)) ∧
      (ls'.vehicle_speed = 0 ∨
       ∃ sl p, sl ∈ race.speed_limits ∧ p ∈ ts ∧
         ls'.vehicle_speed = min sl.speed_limit p.2)) := by
  rcases step_spec env race car esr bs ts dt ls with
    ⟨_, hstep⟩ | ⟨dq, tq, rs0, ctr0, hpe, hrest⟩
  · exact Or.inl ⟨false, hstep⟩
  rcases hrest with ⟨v, _, hstep⟩ | ⟨_, hrest⟩
  · exact Or.inl ⟨v, hstep⟩
  rcases hrest with ⟨_, hstep⟩ | ⟨sl, hsl, hrest⟩
  · exact Or.inr (Or.inl hstep)
  rcases hrest with ⟨_, hstep⟩ | ⟨sv, hts, v, hv, hrest⟩
  · exact Or.inr (Or.inl hstep)
  obtain ⟨⟨_, fd, hfd, hfddue⟩, ⟨_, ft, hft, hftdue⟩⟩ :=
    process_events_spec ls.distQ ls.timeQ ls.st ls.race_state
      ls.checkpoint_time_remaining dq tq rs0 ctr0 hpe
  have hveh : v = 0 ∨
      ∃ sle p, sle ∈ race.speed_limits ∧ p ∈ ts ∧
        v = min sle.speed_limit p.2 := by
    rw [hv]
    by_cases hdrive : (checkpoint_logic rs0 ctr0 dt).1.driving = true
    · rw [if_pos hdrive]
      obtain ⟨sle, hsle, hsleq⟩ := determine_speed_limit_mem race.speed_limits
        ls.st.distance sl hsl
      obtain ⟨p, hp, hpq⟩ := get_target_speed_mem ts ls.st.distance sv hts
      exact Or.inr ⟨sle, p, hsle, hp, by rw [← hsleq, ← hpq]⟩
    · rw [if_neg hdrive]
      exact Or.inl (by norm_num)
  rcases hrest with ⟨_, hstep⟩ | ⟨_, hstep⟩
  · refine Or.inr (Or.inr ⟨_, hstep, rfl, ⟨fd, hfd, hfddue⟩, ⟨ft, hft, hftdue⟩,
      Or.inr ⟨_, rfl, rfl, rfl⟩, ?_⟩)
    simpa [tick_on] using hveh
  · refine Or.inr (Or.inr ⟨_, hstep, rfl, ⟨fd, hfd, hfddue⟩, ⟨ft, hft, hftdue⟩,
      Or.inl ⟨rfl, rfl, rfl, rfl⟩, ?_⟩)
    simpa [tick_off] using hveh

/-- Appending one element to a chain whose elements all relate to it
preserves the chain. -/
lemma chain'_append_singleton {α : Type} {R : α → α → Prop} {l : List α} {x : α}
    (hl : List.Chain' R l) (hx : ∀ e ∈ l, R e x) : List.Chain' R (l ++ [x]) := by
  rw [List.chain'_append]
  refine ⟨hl, List.chain'_singleton x, ?_⟩
  intro a ha b hb
  have hb' : x = b := by simpa using hb
  subst hb'
  exact hx a (List.mem_of_mem_getLast? ha)

/-- The head of the trajectory log never changes over a run. -/
lemma runAux_log_head (env : Env) (race : Race) (car : Car) (esr bs : ℚ)
    (ts : List (ℚ × ℚ)) (dt : ℚ) :
    ∀ (n : ℕ) (ls : LoopState) (r : LogRec), ls.log.head? = some r →
    (runAux env race car esr bs ts dt n ls).log.head? = some r := by
  intro n
  induction n with
  | zero => intro ls r h; simpa [runAux, RunResult.log] using h
  | succ n ih =>
    intro ls r h
    rcases step_post env race car esr bs ts dt ls with
      ⟨v, hstep⟩ | hstep | ⟨ls', hstep, _, _, _, hlog, _⟩
    · simpa [runAux, hstep, RunResult.log] using h
    · simpa [runAux, hstep, RunResult.log] using h
    · have hrun : runAux env race car esr bs ts dt (n + 1) ls =
          runAux env race car esr bs ts dt n ls' := by
        simp [runAux, hstep]
      rw [hrun]
      apply ih
      rcases hlog with ⟨hsame, _⟩ | ⟨ap, happ, _⟩
      · rw [hsame]; exact h
      · rw [happ]
        cases hlist : ls.log with
        | nil => rw [hlist] at h; exact absurd h (by simp)
        | cons a t =>
          rw [hlist] at h
          simpa using h

/-- Preservation of the derived-SOC invariant over a run: if the current
state and every logged state satisfy `soc = energy / battery_size`, so do
the final state and every logged state of the run. -/
lemma runAux_soc_inv (env : Env) (race : Race) (car : Car) (esr bs : ℚ)
    (ts : List (ℚ × ℚ)) (dt : ℚ) :
    ∀ (n : ℕ) (ls : LoopState),
    ls.st.soc = ls.st.energy / bs →
    (∀ e ∈ ls.log, e.1.soc = e.1.energy / bs) →
    ((runAux env race car esr bs ts dt n ls).state.soc =
      (runAux env race car esr bs ts dt n ls).state.energy / bs ∧
     ∀ e ∈ (runAux env race car esr bs ts dt n ls).log,
       e.1.soc = e.1.energy / bs) := by
  intro n
  induction n with
  | zero => intro ls h1 h2; exact ⟨h1, h2⟩
  | succ n ih =>
    intro ls h1 h2
    rcases step_post env race car esr bs ts dt ls with
      ⟨v, hstep⟩ | hstep | ⟨ls', hstep, _, _, _, hupd, _⟩
    · have hrun : runAux env race car esr bs ts dt (n + 1) ls =
          .done v ls.st ls.log := by simp [runAux, hstep]
      rw [hrun]
      exact ⟨h1, h2⟩
    · have hrun : runAux env race car esr bs ts dt (n + 1) ls =
          .crashed ls.st ls.log := by simp [runAux, hstep]
      rw [hrun]
      exact ⟨h1, h2⟩
    · have hrun : runAux env race car esr bs ts dt (n + 1) ls =
          runAux env race car esr bs ts dt n ls' := by
        simp [runAux, hstep]
      rw [hrun]
      rcases hupd with ⟨hlog, _, hen, hsoc⟩ | ⟨ap, hlog, _, hsoc⟩
      · exact ih ls' (by rw [hsoc, hen]; exact h1) (by rw [hlog]; exact h2)
      · refine ih ls' hsoc ?_
        rw [hlog]
        intro e he
        rcases List.mem_append.mp he with he' | he'
        · exact h2 e he'
        · have : e = (ls'.st, ap, ls'.vehicle_speed) := by simpa using he'
          rw [this]
          exact hsoc

/-- Monotonicity of time and distance over a run, together with the
ordering of the trajectory log, under non-negative `dt`, speed limits and
scheduled target speeds. -/
lemma runAux_mono (env : Env) (race : Race) (car : Car) (esr bs : ℚ)
    (ts : List (ℚ × ℚ)) (dt : ℚ) (hdt : 0 ≤ dt)
    (hsl : ∀ sl ∈ race.speed_limits, 0 ≤ sl.speed_limit)
    (hts : ∀ p ∈ ts, 0 ≤ p.2) :
    ∀ (n : ℕ) (ls : LoopState),
    List.Chain' (fun a b : LogRec =>
      a.1.time ≤ b.1.time ∧ a.1.distance ≤ b.1.distance) ls.log →
    (∀ e ∈ ls.log, e.1.time ≤ ls.st.time ∧ e.1.distance ≤ ls.st.distance) →
    (ls.st.time ≤ (runAux env race car esr bs ts dt n ls).state.time ∧
     ls.st.distance ≤ (runAux env race car esr bs ts dt n ls).state.distance ∧
     List.Chain' (fun a b : LogRec =>
       a.1.time ≤ b.1.time ∧ a.1.distance ≤ b.1.distance)
       (runAux env race car esr bs ts dt n ls).log ∧
     ∀ e ∈ (runAux env race car esr bs ts dt n ls).log,
       e.1.time ≤ (runAux env race car esr bs ts dt n ls).state.time ∧
       e.1.distance ≤ (runAux env race car esr bs ts dt n ls).state.distance) := by
  intro n
  induction n with
  | zero => intro ls hchain hdom; exact ⟨le_refl _, le_refl _, hchain, hdom⟩
  | succ n ih =>
    intro ls hchain hdom
    rcases step_post env race car esr bs ts dt ls with
      ⟨v, hstep⟩ | hstep | ⟨ls', hstep, htime, _, _, hupd, hveh⟩
    · have hrun : runAux env race car esr bs ts dt (n + 1) ls =
          .done v ls.st ls.log := by simp [runAux, hstep]
      rw [hrun]
      exact ⟨le_refl _, le_refl _, hchain, hdom⟩
    · have hrun : runAux env race car esr bs ts dt (n + 1) ls =
          .crashed ls.st ls.log := by simp [runAux, hstep]
      rw [hrun]
      exact ⟨le_refl _, le_refl _, hchain, hdom⟩
    · have hrun : runAux env race car esr bs ts dt (n + 1) ls =
          runAux env race car esr bs ts dt n ls' := by
        simp [runAux, hstep]
      rw [hrun]
      have hv0 : 0 ≤ ls'.vehicle_speed := by
        rcases hveh with h0 | ⟨sle, p, hsle, hp, hmin⟩
        · rw [h0]
        · rw [hmin]
          exact le_min (hsl sle hsle) (hts p hp)
      have ht' : ls.st.time ≤ ls'.st.time := by
        rw [htime]; linarith
      have hd' : ls.st.distance ≤ ls'.st.distance := by
        rcases hupd with ⟨_, hd, _, _⟩ | ⟨ap, _, hd, _⟩
        · rw [hd]
        · rw [hd]
          nlinarith
      have hchain' : List.Chain' (fun a b : LogRec =>
          a.1.time ≤ b.1.time ∧ a.1.distance ≤ b.1.distance) ls'.log := by
        rcases hupd with ⟨hlog, _, _, _⟩ | ⟨ap, hlog, _, _⟩
        · rw [hlog]; exact hchain
        · rw [hlog]
          refine chain'_append_singleton hchain ?_
          intro e he
          obtain ⟨het, hed⟩ := hdom e he
          exact ⟨le_trans het ht', le_trans hed hd'⟩
      have hdom' : ∀ e ∈ ls'.log,
          e.1.time ≤ ls'.st.time ∧ e.1.distance ≤ ls'.st.distance := by
        rcases hupd with ⟨hlog, _, _, _⟩ | ⟨ap, hlog, _, _⟩
        · rw [hlog]
          intro e he
          obtain ⟨het, hed⟩ := hdom e he
          exact ⟨le_trans het ht', le_trans hed hd'⟩
        · rw [hlog]
          intro e he
          rcases List.mem_append.mp he with he' | he'
          · obtain ⟨het, hed⟩ := hdom e he'
            exact ⟨le_trans het ht', le_trans hed hd'⟩
          · have : e = (ls'.st, ap, ls'.vehicle_speed) := by simpa using he'
            rw [this]
            exact ⟨le_refl _, le_refl _⟩
      obtain ⟨ha, hb, hc, hd⟩ := ih ls' hchain' hdom'
      exact ⟨le_trans ht' ha, le_trans hd' hb, hc, hd⟩

/-- Over a run, the remaining event queues are suffixes of the starting
queues and the consumed prefixes fired with due keys. -/
lemma runAux_queues (env : Env) (race : Race) (car : Car) (esr bs : ℚ)
    (ts : List (ℚ × ℚ)) (dt : ℚ) :
    ∀ (n : ℕ) (ls ls₁ : LoopState),
    runAux env race car esr bs ts dt n ls = .fuelOut ls₁ →
    (∃ fd, ls.distQ = fd ++ ls₁.distQ) ∧ (∃ ft, ls.timeQ = ft ++ ls₁.timeQ) := by
  intro n
  induction n with
  | zero =>
    intro ls ls₁ h
    simp only [runAux, RunResult.fuelOut.injEq] at h
    subst h
    exact ⟨⟨[], rfl⟩, ⟨[], rfl⟩⟩
  | succ n ih =>
    intro ls ls₁ h
    rcases step_post env race car esr bs ts dt ls with
      ⟨v, hstep⟩ | hstep | ⟨ls', hstep, _, ⟨fd, hfd, _⟩, ⟨ft, hft, _⟩, _, _⟩
    · rw [runAux, hstep] at h; exact absurd h (by simp)
    · rw [runAux, hstep] at h; exact absurd h (by simp)
    · rw [runAux, hstep] at h
      obtain ⟨⟨fd₂, hfd₂⟩, ⟨ft₂, hft₂⟩⟩ := ih ls' ls₁ h
      exact ⟨⟨fd ++ fd₂, by rw [hfd, hfd₂, List.append_assoc]⟩,
        ⟨ft ++ ft₂, by rw [hft, hft₂, List.append_assoc]⟩⟩

/-- Pack ESR as computed at the top of `simulate`
(core/simulation.py lines 64-65). -/
def pack_esr (car : Car) : ℚ :=
  car.battery.cell_esr *
    ((car.battery.cells_in_series : ℚ) / (car.battery.cells_in_parallel : ℚ))

/-- The loop state at entry of the `while True:` loop: deep-copied queues,
the deep-copied initial state, and the log seeded with the initial
snapshot paired with array power 0 and vehicle speed 0. -/
def init_loop_state (race : Race) (st : State) (rs : RaceActions)
    (ctr vs : ℚ) : LoopState :=
  { distQ := race.distance_events, timeQ := race.time_events, st := st,
    race_state := rs, checkpoint_time_remaining := ctr,
    vehicle_speed := vs, total_grid_energy := 0.0,
    log := [(st, 0.0, 0.0)] }

/-- `simulate` is the loop run from the initial loop state with the
passenger-adjusted car. -/
lemma simulate_eq_runAux (env : Env) (race : Race) (car : Car) (bs : ℚ)
    (st : State) (rs : RaceActions) (ts : List (ℚ × ℚ)) (ctr vs dt : ℚ)
    (fuel : ℕ) :
    simulate env race car bs st rs ts ctr vs dt fuel =
      runAux env race (car.copy_with_mass (car.mass + 2 * 80.0))
        (pack_esr (car.copy_with_mass (car.mass + 2 * 80.0))) bs ts dt fuel
        (init_loop_state race st rs ctr vs) := rfl

/-- Appending an element changes a list. -/
lemma append_singleton_ne {α : Type} (l : List α) (x : α) : l ++ [x] ≠ l := by
  intro h
  have := congrArg List.length h
  simp at this

/-- Fixture environment for concrete witnesses: constant collaborators. -/
def envW : Env :=
  { get_location := fun _ => (0, 0), sun_position := fun _ _ _ => 0,
    get_sun_power := fun _ => 0, wind_func := fun _ _ => 0,
    array_model := fun _ _ _ => 0, end_simulation := fun _ => none,
    air_density := 1 }

/-- Fixture battery for concrete witnesses. -/
def batteryW : Battery := ⟨1, 1, 1, 1⟩

/-- Fixture car for concrete witnesses. -/
def carW : Car := ⟨100, 1, 1, 1, 1, 1, 1, batteryW⟩

/-- Fixture race for concrete witnesses: no events, one speed limit. -/
def raceW : Race := ⟨[], [], [⟨0, 1⟩]⟩

/-- Fixture target-speed schedule for concrete witnesses. -/
def tsW : List (ℚ × ℚ) := [(0, 1)]

/-- Fixture race actions for concrete witnesses. -/
def raW : RaceActions := ⟨false, false, false, false, false, false⟩

/-- Fixture initial state for concrete witnesses. -/
def stW : State := ⟨0, 0, 0, 0⟩

/-- C10: the trajectory log returned by `simulate` is always non-empty and
its first record is the snapshot of the initial state paired with array
power `0.0` and vehicle speed `0.0`, appended before the first tick; this
holds for every fuel bound, including runs that return on their very first
tick. -/
theorem c10_initial_log_record (env : Env) (race : Race) (car : Car) (bs : ℚ)
    (st : State) (rs : RaceActions) (ts : List (ℚ × ℚ)) (ctr vs dt : ℚ)
    (fuel : ℕ) :
    (simulate env race car bs st rs ts ctr vs dt fuel).log ≠ [] ∧
    (simulate env race car bs st rs ts ctr vs dt fuel).log.head? =
      some (st, 0.0, 0.0) := by
  have hhead : (simulate env race car bs st rs ts ctr vs dt fuel).log.head? =
      some (st, 0.0, 0.0) := by
    rw [simulate_eq_runAux]
    exact runAux_log_head _ _ _ _ _ _ _ fuel _ (st, 0.0, 0.0) rfl
  refine ⟨?_, hhead⟩
  intro hnil
  rw [hnil] at hhead
  exact absurd hhead (by simp)

/-- C2: if the initial state satisfies `soc = energy / battery_size`
(with `battery_size` nonzero), then every state appended to the trajectory
log and the returned final state satisfy `soc = energy / battery_size`:
`soc` is only ever written as `energy / battery_size` right after each
energy update. -/
theorem c2_soc_derived (env : Env) (race : Race) (car : Car) (bs : ℚ)
    (st : State) (rs : RaceActions) (ts : List (ℚ × ℚ)) (ctr vs dt : ℚ)
    (fuel : ℕ) (hbs : bs ≠ 0) (hinv : st.soc = st.energy / bs) :
    (∀ e ∈ (simulate env race car bs st rs ts ctr vs dt fuel).log,
      e.1.soc = e.1.energy / bs) ∧
    (simulate env race car bs st rs ts ctr vs dt fuel).state.soc =
      (simulate env race car bs st rs ts ctr vs dt fuel).state.energy / bs := by
  rw [simulate_eq_runAux]
  have h := runAux_soc_inv env race (car.copy_with_mass (car.mass + 2 * 80.0))
    (pack_esr (car.copy_with_mass (car.mass + 2 * 80.0))) bs ts dt fuel
    (init_loop_state race st rs ctr vs) hinv ?_
  · exact ⟨h.2, h.1⟩
  · intro e he
    have he' : e = (st, 0.0, 0.0) := by
      simpa [init_loop_state] using he
    rw [he']
    exact hinv

/-- C2 witness: the theorem applied to the fixture inputs with
`battery_size = 2` and initial `soc = energy / 2`. -/
theorem c2_soc_derived_witness :
    (2 : ℚ) ≠ 0 ∧ (State.mk 0 4 2 0).soc = (State.mk 0 4 2 0).energy / 2 ∧
    ((∀ e ∈ (simulate envW raceW carW 2 (State.mk 0 4 2 0) raW tsW 0 0 1 3).log,
        e.1.soc = e.1.energy / 2) ∧
     (simulate envW raceW carW 2 (State.mk 0 4 2 0) raW tsW 0 0 1 3).state.soc =
       (simulate envW raceW carW 2 (State.mk 0 4 2 0) raW tsW 0 0 1 3).state.energy / 2) :=
  ⟨by norm_num, by norm_num,
   c2_soc_derived envW raceW carW 2 (State.mk 0 4 2 0) raW tsW 0 0 1 3
     (by norm_num) (by norm_num)⟩

/-- C3: with `dt > 0` and all speed limits and scheduled target speeds
non-negative, `time` and `distance` are non-decreasing across the whole
run: the final state dominates the initial one, the trajectory log is
ordered, every logged state is dominated by the final state, and per tick
the time advances by exactly `dt` while the distance advances by
`vehicle_speed * dt` when the car is on (the tick that appends a log
record) and is unchanged otherwise. -/
theorem c3_time_distance_monotone (env : Env) (race : Race) (car : Car)
    (bs : ℚ) (st : State) (rs : RaceActions) (ts : List (ℚ × ℚ))
    (ctr vs dt : ℚ) (fuel : ℕ) (hdt : 0 < dt)
    (hsl : ∀ sl ∈ race.speed_limits, 0 ≤ sl.speed_limit)
    (hts : ∀ p ∈ ts, 0 ≤ p.2) :
    (st.time ≤ (simulate env race car bs st rs ts ctr vs dt fuel).state.time ∧
     st.distance ≤
       (simulate env race car bs st rs ts ctr vs dt fuel).state.distance) ∧
    List.Chain' (fun a b : LogRec =>
      a.1.time ≤ b.1.time ∧ a.1.distance ≤ b.1.distance)
      (simulate env race car bs st rs ts ctr vs dt fuel).log ∧
    (∀ e ∈ (simulate env race car bs st rs ts ctr vs dt fuel).log,
      e.1.time ≤ (simulate env race car bs st rs ts ctr vs dt fuel).state.time ∧
      e.1.distance ≤
        (simulate env race car bs st rs ts ctr vs dt fuel).state.distance) ∧
    (∀ (car' : Car) (esr : ℚ) (ls ls' : LoopState),
      step env race car' esr bs ts dt ls = .cont ls' →
      ls'.st.time = ls.st.time + dt ∧
      (ls'.log = ls.log → ls'.st.distance = ls.st.distance) ∧
      (ls'.log ≠ ls.log →
        ls'.st.distance = ls.st.distance + ls'.vehicle_speed * dt ∧
        0 ≤ ls'.vehicle_speed)) := by
  have hstep_part : ∀ (car' : Car) (esr : ℚ) (ls ls' : LoopState),
      step env race car' esr bs ts dt ls = .cont ls' →
      ls'.st.time = ls.st.time + dt ∧
      (ls'.log = ls.log → ls'.st.distance = ls.st.distance) ∧
      (ls'.log ≠ ls.log →
        ls'.st.distance = ls.st.distance + ls'.vehicle_speed * dt ∧
        0 ≤ ls'.vehicle_speed) := by
    intro car' esr ls ls' hstep
    rcases step_post env race car' esr bs ts dt ls with
      ⟨v, h⟩ | h | ⟨ls'', h, htime, _, _, hupd, hveh⟩
    · rw [hstep] at h; exact absurd h (by simp)
    · rw [hstep] at h; exact absurd h (by simp)
    · rw [hstep] at h
      have hsame : ls'' = ls' := by
        have := h
        simpa [StepResult.cont.injEq] using this.symm
      subst hsame
      have hv0 : 0 ≤ ls''.vehicle_speed := by
        rcases hveh with h0 | ⟨sle, p, hsle, hp, hmin⟩
        · rw [h0]
        · rw [hmin]
          exact le_min (hsl sle hsle) (hts p hp)
      refine ⟨htime, ?_, ?_⟩
      · intro hlogeq
        rcases hupd with ⟨_, hd, _, _⟩ | ⟨ap, hlog, _, _⟩
        · exact hd
        · rw [hlogeq] at hlog
          exact absurd hlog.symm (append_singleton_ne _ _)
      · intro hlogne
        rcases hupd with ⟨hlog, _, _, _⟩ | ⟨ap, _, hd, _⟩
        · exact absurd hlog hlogne
        · exact ⟨hd, hv0⟩
  rw [simulate_eq_runAux]
  have h := runAux_mono env race (car.copy_with_mass (car.mass + 2 * 80.0))
    (pack_esr (car.copy_with_mass (car.mass + 2 * 80.0))) bs ts dt
    (le_of_lt hdt) hsl hts fuel (init_loop_state race st rs ctr vs)
    (by simp [init_loop_state]) ?_
  · exact ⟨⟨h.1, h.2.1⟩, h.2.2.1, h.2.2.2, hstep_part⟩
  · intro e he
    have he' : e = (st, 0.0, 0.0) := by
      simpa [init_loop_state] using he
    rw [he']
    exact ⟨le_refl _, le_refl _⟩

/-- C3 witness: the theorem applied to the fixture inputs with `dt = 1`,
speed limit list `[(0 m, 1 m/s)]` and schedule `[(0 m, 1 m/s)]`. -/
theorem c3_time_distance_monotone_witness :
    (0 : ℚ) < 1 ∧ (∀ sl ∈ raceW.speed_limits, 0 ≤ sl.speed_limit) ∧
    (∀ p ∈ tsW, 0 ≤ p.2) ∧
    ((stW.time ≤ (simulate envW raceW carW 1 stW raW tsW 0 0 1 2).state.time ∧
      stW.distance ≤
        (simulate envW raceW carW 1 stW raW tsW 0 0 1 2).state.distance) ∧
     List.Chain' (fun a b : LogRec =>
       a.1.time ≤ b.1.time ∧ a.1.distance ≤ b.1.distance)
       (simulate envW raceW carW 1 stW raW tsW 0 0 1 2).log ∧
     (∀ e ∈ (simulate envW raceW carW 1 stW raW tsW 0 0 1 2).log,
       e.1.time ≤ (simulate envW raceW carW 1 stW raW tsW 0 0 1 2).state.time ∧
       e.1.distance ≤
         (simulate envW raceW carW 1 stW raW tsW 0 0 1 2).state.distance) ∧
     (∀ (car' : Car) (esr : ℚ) (ls ls' : LoopState),
       step envW raceW car' esr 1 tsW 1 ls = .cont ls' →
       ls'.st.time = ls.st.time + 1 ∧
       (ls'.log = ls.log → ls'.st.distance = ls.st.distance) ∧
       (ls'.log ≠ ls.log →
         ls'.st.distance = ls.st.distance + ls'.vehicle_speed * 1 ∧
         0 ≤ ls'.vehicle_speed))) :=
  ⟨by norm_num,
   by intro sl h; simp only [raceW] at h; simp only [List.mem_singleton] at h;
      rw [h]; norm_num,
   by intro p h; simp only [tsW] at h; simp only [List.mem_singleton] at h;
      rw [h]; norm_num,
   c3_time_distance_monotone envW raceW carW 1 stW raW tsW 0 0 1 2
     (by norm_num)
     (by intro sl h; simp only [raceW] at h; simp only [List.mem_singleton] at h;
         rw [h]; norm_num)
     (by intro p h; simp only [tsW] at h; simp only [List.mem_singleton] at h;
         rw [h]; norm_num)⟩

/-- C6: `simulate` is deterministic: two runs with identical race, car,
battery size, initial state, initial actions, schedule, checkpoint time,
initial speed, `dt` and fuel, and pointwise-equal injected pure functions
(route, solar, wind, array, termination, air density), return the same
result: same verdict, same final state, and element-for-element identical
trajectory logs. -/
theorem c6_deterministic (env₁ env₂ : Env) (race : Race) (car : Car)
    (bs : ℚ) (st : State) (rs : RaceActions) (ts : List (ℚ × ℚ))
    (ctr vs dt : ℚ) (fuel : ℕ)
    (hgl : ∀ d, env₁.get_location d = env₂.get_location d)
    (hsp : ∀ t lon lat, env₁.sun_position t lon lat = env₂.sun_position t lon lat)
    (hgsp : ∀ a, env₁.get_sun_power a = env₂.get_sun_power a)
    (hwf : ∀ d t, env₁.wind_func d t = env₂.wind_func d t)
    (ham : ∀ i a b, env₁.array_model i a b = env₂.array_model i a b)
    (hes : ∀ s, env₁.end_simulation s = env₂.end_simulation s)
    (had : env₁.air_density = env₂.air_density) :
    simulate env₁ race car bs st rs ts ctr vs dt fuel =
      simulate env₂ race car bs st rs ts ctr vs dt fuel ∧
    (simulate env₁ race car bs st rs ts ctr vs dt fuel).log =
      (simulate env₂ race car bs st rs ts ctr vs dt fuel).log ∧
    (simulate env₁ race car bs st rs ts ctr vs dt fuel).state =
      (simulate env₂ race car bs st rs ts ctr vs dt fuel).state := by
  have henv : env₁ = env₂ := by
    obtain ⟨gl₁, sp₁, gsp₁, wf₁, am₁, es₁, ad₁⟩ := env₁
    obtain ⟨gl₂, sp₂, gsp₂, wf₂, am₂, es₂, ad₂⟩ := env₂
    have h1 : gl₁ = gl₂ := funext hgl
    have h2 : sp₁ = sp₂ :=
      funext fun t => funext fun lon => funext fun lat => hsp t lon lat
    have h3 : gsp₁ = gsp₂ := funext hgsp
    have h4 : wf₁ = wf₂ := funext fun d => funext fun t => hwf d t
    have h5 : am₁ = am₂ :=
      funext fun i => funext fun a => funext fun b => ham i a b
    have h6 : es₁ = es₂ := funext hes
    have h7 : ad₁ = ad₂ := had
    rw [h1, h2, h3, h4, h5, h6, h7]
  rw [henv]
  exact ⟨rfl, rfl, rfl⟩

/-- C6 witness: the theorem applied to two (syntactically equal) copies of
the fixture environment. -/
theorem c6_deterministic_witness :
    (∀ d, envW.get_location d = envW.get_location d) ∧
    (simulate envW raceW carW 1 stW raW tsW 0 0 1 2 =
       simulate envW raceW carW 1 stW raW tsW 0 0 1 2 ∧
     (simulate envW raceW carW 1 stW raW tsW 0 0 1 2).log =
       (simulate envW raceW carW 1 stW raW tsW 0 0 1 2).log ∧
     (simulate envW raceW carW 1 stW raW tsW 0 0 1 2).state =
       (simulate envW raceW carW 1 stW raW tsW 0 0 1 2).state) :=
  ⟨fun _ => rfl,
   c6_deterministic envW envW raceW carW 1 stW raW tsW 0 0 1 2
     (fun _ => rfl) (fun _ _ _ => rfl) (fun _ => rfl) (fun _ _ => rfl)
     (fun _ _ _ => rfl) (fun _ => rfl) rfl⟩

/-- C9: `simulate` never uses the configured car mass directly: it runs
the loop on a copy of the car whose mass is the configured mass plus
`2 * 80.0` kg, and `copy_with` replaces exactly the mass field, leaving
every other field of the (immutable) `Car` value unchanged. -/
theorem c9_passenger_mass :
    (∀ (c : Car) (m : ℚ),
      (c.copy_with_mass m).mass = m ∧
      (c.copy_with_mass m).cda = c.cda ∧
      (c.copy_with_mass m).crr = c.crr ∧
      (c.copy_with_mass m).idle_power_loss = c.idle_power_loss ∧
      (c.copy_with_mass m).powertrain_efficiency = c.powertrain_efficiency ∧
      (c.copy_with_mass m).motor_efficiency = c.motor_efficiency ∧
      (c.copy_with_mass m).charger_efficiency = c.charger_efficiency ∧
      (c.copy_with_mass m).battery = c.battery) ∧
    (∀ (env : Env) (race : Race) (car : Car) (bs : ℚ) (st : State)
       (rs : RaceActions) (ts : List (ℚ × ℚ)) (ctr vs dt : ℚ) (fuel : ℕ),
      simulate env race car bs st rs ts ctr vs dt fuel =
        simulate_from env race (car.copy_with_mass (car.mass + 2 * 80.0)) bs
          st rs ts ctr vs dt fuel) :=
  ⟨fun c m => ⟨rfl, rfl, rfl, rfl, rfl, rfl, rfl, rfl⟩,
   fun _ _ _ _ _ _ _ _ _ _ _ => rfl⟩

/-- C4: when the front distance event is due and its deadline has passed —
a `StageStop` with the current time past both `target_arrival` and
`latest_arrival`, or a `ControlStop` with the current time past
`latest_arrival` — the tick returns normally (no exception) with verdict
`false`, the current state and the trajectory log collected so far, and so
does the whole run. -/
theorem c4_missed_deadline_infeasible (env : Env) (race : Race) (car : Car)
    (esr bs : ℚ) (ts : List (ℚ × ℚ)) (dt : ℚ) (ls : LoopState) :
    (∀ (s : StageStop) (rest : List DistEvent),
      ls.distQ = DistEvent.stage s :: rest →
      s.distance ≤ ls.st.distance →
      s.target_arrival < ls.st.time →
      s.latest_arrival < ls.st.time →
      step env race car esr bs ts dt ls = .ret false ls.st ls.log ∧
      ∀ n : ℕ, runAux env race car esr bs ts dt (n + 1) ls =
        .done false ls.st ls.log) ∧
    (∀ (c : ControlStop) (rest : List DistEvent),
      ls.distQ = DistEvent.control c :: rest →
      c.distance ≤ ls.st.distance →
      c.latest_arrival < ls.st.time →
      step env race car esr bs ts dt ls = .ret false ls.st ls.log ∧
      ∀ n : ℕ, runAux env race car esr bs ts dt (n + 1) ls =
        .done false ls.st ls.log) := by
  have key : ∀ hpe : process_events ls.distQ ls.timeQ ls.st ls.race_state
      ls.checkpoint_time_remaining = none,
      step env race car esr bs ts dt ls = .ret false ls.st ls.log ∧
      ∀ n : ℕ, runAux env race car esr bs ts dt (n + 1) ls =
        .done false ls.st ls.log := by
    intro hpe
    have hstep : step env race car esr bs ts dt ls = .ret false ls.st ls.log := by
      rcases step_spec env race car esr bs ts dt ls with
        ⟨_, hstep⟩ | ⟨dq, tq, rs0, ctr0, hpe', _⟩
      · exact hstep
      · rw [hpe] at hpe'; exact absurd hpe' (by simp)
    exact ⟨hstep, fun n => by simp [runAux, hstep]⟩
  constructor
  · intro s rest hq hdist htarget hlatest
    apply key
    have hpd : process_distance_events ls.distQ ls.st ls.race_state
        ls.checkpoint_time_remaining = none := by
      rw [hq, process_distance_events,
        if_pos (show ls.st.distance ≥ (DistEvent.stage s).distance from hdist),
        if_neg (not_le.mpr htarget), if_neg (not_le.mpr hlatest)]
    unfold process_events
    rw [hpd]
  · intro c rest hq hdist hlatest
    apply key
    have hpd : process_distance_events ls.distQ ls.st ls.race_state
        ls.checkpoint_time_remaining = none := by
      rw [hq, process_distance_events,
        if_pos (show ls.st.distance ≥ (DistEvent.control c).distance from hdist),
        if_neg (not_le.mpr hlatest)]
    unfold process_events
    rw [hpd]

/-- Fixture stage stop for the C4 witness: due at distance 0, both
deadlines already passed at time 1. -/
def stageW : StageStop := ⟨"stage", 0, 0, 0⟩

/-- Fixture loop state for the C4 witness: at distance 0 and time 1, with
`stageW` at the front of the distance queue. -/
def lsW4 : LoopState :=
  ⟨[DistEvent.stage stageW], [], ⟨0, 0, 0, 1⟩, raW, 0, 0, 0, [(⟨0, 0, 0, 0⟩, 0, 0)]⟩

/-- C4 witness: the theorem applied to the fixture loop state whose front
stage stop is due with both deadlines passed. -/
theorem c4_missed_deadline_infeasible_witness :
    lsW4.distQ = DistEvent.stage stageW :: [] ∧
    stageW.distance ≤ lsW4.st.distance ∧
    stageW.target_arrival < lsW4.st.time ∧
    stageW.latest_arrival < lsW4.st.time ∧
    (step envW raceW carW 1 1 tsW 1 lsW4 = .ret false lsW4.st lsW4.log ∧
     ∀ n : ℕ, runAux envW raceW carW 1 1 tsW 1 (n + 1) lsW4 =
       .done false lsW4.st lsW4.log) :=
  ⟨rfl, by norm_num [stageW, lsW4], by norm_num [stageW, lsW4],
   by norm_num [stageW, lsW4],
   (c4_missed_deadline_infeasible envW raceW carW 1 1 tsW 1 lsW4).1 stageW []
     rfl (by norm_num [stageW, lsW4]) (by norm_num [stageW, lsW4])
     (by norm_num [stageW, lsW4])⟩

/-- C7: the car is off exactly when the sun altitude at the current
position and time is at most 0 and effective grid charging is not in
force; in such a tick only the time advances, by exactly `dt`, while
distance, energy and SOC are unchanged and no record is appended to the
trajectory log. -/
theorem c7_car_off_frame (env : Env) (race : Race) (car : Car)
    (esr bs : ℚ) (ts : List (ℚ × ℚ)) (dt : ℚ) :
    (∀ (st : State) (rsp : RaceActions),
      tick_car_is_on env st rsp = false ↔
        (env.sun_position st.time (env.get_location st.distance).2
            (env.get_location st.distance).1 ≤ 0.0 ∧
         ¬(rsp.grid_charging = true ∧ st.soc < 1.0))) ∧
    (∀ (ls : LoopState) (dq : List DistEvent) (tq : List TimeEvent)
       (rs' : RaceActions) (ctr' sl sv : ℚ),
      process_events ls.distQ ls.timeQ ls.st ls.race_state
        ls.checkpoint_time_remaining = some (dq, tq, rs', ctr') →
      env.end_simulation ls.st = none →
      determine_speed_limit race.speed_limits ls.st.distance = some sl →
      get_target_speed ts ls.st.distance = some sv →
      tick_car_is_on env ls.st rs' = false →
      ∃ ls', step env race car esr bs ts dt ls = .cont ls' ∧
        ls'.st.time = ls.st.time + dt ∧
        ls'.st.distance = ls.st.distance ∧
        ls'.st.energy = ls.st.energy ∧
        ls'.st.soc = ls.st.soc ∧
        ls'.log = ls.log) := by
  constructor
  · intro st rsp
    unfold tick_car_is_on
    constructor
    · intro h
      simp only [Bool.or_eq_false_iff, Bool.and_eq_false_iff,
        decide_eq_false_iff_not, not_lt] at h
      obtain ⟨h1, h2⟩ := h
      refine ⟨h1, ?_⟩
      rintro ⟨hg, hs⟩
      rcases h2 with h2 | h2
      · rw [hg] at h2; exact Bool.false_ne_true h2.symm
      · exact absurd hs (not_lt.mpr h2)
    · rintro ⟨h1, h2⟩
      simp only [Bool.or_eq_false_iff, Bool.and_eq_false_iff,
        decide_eq_false_iff_not, not_lt]
      refine ⟨h1, ?_⟩
      by_cases hg : rsp.grid_charging = true
      · right
        by_cases hs : st.soc < 1.0
        · exact absurd ⟨hg, hs⟩ h2
        · exact not_lt.mp hs
      · left
        exact Bool.eq_false_iff.mpr hg
  · intro ls dq tq rs' ctr' sl sv hpe hes hsl hts hoff
    rcases step_spec env race car esr bs ts dt ls with
      ⟨hpe', _⟩ | ⟨dq₀, tq₀, rs0, ctr0, hpe', hrest⟩
    · rw [hpe] at hpe'; exact absurd hpe' (by simp)
    rw [hpe] at hpe'
    have hinj := hpe'
    simp only [Option.some.injEq, Prod.mk.injEq] at hinj
    obtain ⟨hdq, htq, hrs, hctr⟩ := hinj
    subst hdq htq hrs hctr
    rcases hrest with ⟨v, hes', _⟩ | ⟨_, hrest⟩
    · rw [hes] at hes'; exact absurd hes' (by simp)
    rcases hrest with ⟨hsl', _⟩ | ⟨sl', hsl', hrest⟩
    · rw [hsl] at hsl'; exact absurd hsl' (by simp)
    rcases hrest with ⟨hts', _⟩ | ⟨sv', hts', v, hv, hrest⟩
    · rw [hts] at hts'; exact absurd hts' (by simp)
    rcases hrest with ⟨hon, _⟩ | ⟨_, hstep⟩
    · rw [hoff] at hon; exact absurd hon (by simp)
    exact ⟨_, hstep, rfl, rfl, rfl, rfl, rfl⟩

/-- C7 witness: the second part of the theorem applied to the fixture
inputs, whose environment has the sun at altitude 0 and no grid charging. -/
theorem c7_car_off_frame_witness :
    process_events (init_loop_state raceW stW raW 0 0).distQ
      (init_loop_state raceW stW raW 0 0).timeQ
      (init_loop_state raceW stW raW 0 0).st
      (init_loop_state raceW stW raW 0 0).race_state
      (init_loop_state raceW stW raW 0 0).checkpoint_time_remaining =
      some ([], [], raW, 0) ∧
    envW.end_simulation (init_loop_state raceW stW raW 0 0).st = none ∧
    determine_speed_limit raceW.speed_limits
      (init_loop_state raceW stW raW 0 0).st.distance = some 1 ∧
    get_target_speed tsW (init_loop_state raceW stW raW 0 0).st.distance =
      some 1 ∧
    tick_car_is_on envW (init_loop_state raceW stW raW 0 0).st raW = false ∧
    (∃ ls', step envW raceW carW 1 1 tsW 1 (init_loop_state raceW stW raW 0 0) =
        .cont ls' ∧
      ls'.st.time = (init_loop_state raceW stW raW 0 0).st.time + 1 ∧
      ls'.st.distance = (init_loop_state raceW stW raW 0 0).st.distance ∧
      ls'.st.energy = (init_loop_state raceW stW raW 0 0).st.energy ∧
      ls'.st.soc = (init_loop_state raceW stW raW 0 0).st.soc ∧
      ls'.log = (init_loop_state raceW stW raW 0 0).log) := by
  have h1 : process_events (init_loop_state raceW stW raW 0 0).distQ
      (init_loop_state raceW stW raW 0 0).timeQ
      (init_loop_state raceW stW raW 0 0).st
      (init_loop_state raceW stW raW 0 0).race_state
      (init_loop_state raceW stW raW 0 0).checkpoint_time_remaining =
      some ([], [], raW, 0) := rfl
  have h2 : envW.end_simulation (init_loop_state raceW stW raW 0 0).st = none := rfl
  have h3 : determine_speed_limit raceW.speed_limits
      (init_loop_state raceW stW raW 0 0).st.distance = some 1 := by
    norm_num [determine_speed_limit, raceW, init_loop_state, stW]
  have h4 : get_target_speed tsW
      (init_loop_state raceW stW raW 0 0).st.distance = some 1 := by
    norm_num [get_target_speed, tsW, init_loop_state, stW]
  have h5 : tick_car_is_on envW (init_loop_state raceW stW raW 0 0).st raW =
      false := by
    norm_num [tick_car_is_on, envW, raW, init_loop_state, stW]
  exact ⟨h1, h2, h3, h4, h5,
    (c7_car_off_frame envW raceW carW 1 1 tsW 1).2
      (init_loop_state raceW stW raW 0 0) [] [] raW 0 1 1 h1 h2 h3 h4 h5⟩

/-- In a key-sorted list, every element surviving `dropWhile (key ≤ d)` has
key above `d`. -/
lemma pairwise_dropWhile_not_due {α : Type} (key : α → ℚ) (d : ℚ) :
    ∀ (l : List α), List.Pairwise (fun a b => key a ≤ key b) l →
    ∀ e ∈ l.dropWhile (fun x => decide (key x ≤ d)), ¬ key e ≤ d := by
  intro l
  induction l with
  | nil => intro _ e he; simp [List.dropWhile] at he
  | cons a rest ih =>
    intro hp e he
    rw [List.dropWhile_cons] at he
    by_cases ha : key a ≤ d
    · rw [if_pos (decide_eq_true ha)] at he
      exact ih hp.of_cons e he
    · rw [if_neg (by simpa using ha)] at he
      rcases List.mem_cons.mp he with rfl | he'
      · exact ha
      · intro hc
        exact ha (le_trans (List.rel_of_pairwise_cons hp he') hc)

/-- C5: `process_events` pops and handles every due distance event, in
queue order, before examining any time event: on success the remaining
queues are exactly the maximal not-yet-due suffixes (so with a sorted
queue no remaining event is due), a failure of the distance phase fails
the whole call regardless of the time queue, and a successful distance
phase hands its resulting actions to the time phase; over a whole run the
remaining queues are always suffixes of the originals, so with queues
sorted by key at construction the fired prefixes fire in non-decreasing
key order and each event fires at most as often as it was enqueued. -/
theorem c5_event_ordering :
    (∀ (dq : List DistEvent) (tq : List TimeEvent) (st : State)
       (rs : RaceActions) (ctr : ℚ) (dq' : List DistEvent)
       (tq' : List TimeEvent) (rs' : RaceActions) (ctr' : ℚ),
      process_events dq tq st rs ctr = some (dq', tq', rs', ctr') →
      dq' = dq.dropWhile (fun e => decide (e.distance ≤ st.distance)) ∧
      tq' = tq.dropWhile (fun e => decide (e.time ≤ st.time)) ∧
      (∃ fired, dq = fired ++ dq' ∧ ∀ e ∈ fired, e.distance ≤ st.distance) ∧
      (∃ fired, tq = fired ++ tq' ∧ ∀ e ∈ fired, e.time ≤ st.time) ∧
      (List.Pairwise (fun a b : DistEvent => a.distance ≤ b.distance) dq →
        ∀ e ∈ dq', ¬ e.distance ≤ st.distance) ∧
      (List.Pairwise (fun a b : TimeEvent => a.time ≤ b.time) tq →
        ∀ e ∈ tq', ¬ e.time ≤ st.time)) ∧
    (∀ (dq : List DistEvent) (tq : List TimeEvent) (st : State)
       (rs : RaceActions) (ctr : ℚ),
      process_distance_events dq st rs ctr = none →
      process_events dq tq st rs ctr = none) ∧
    (∀ (dq : List DistEvent) (tq : List TimeEvent) (st : State)
       (rs : RaceActions) (ctr : ℚ) (dq₁ : List DistEvent)
       (rs₁ : RaceActions) (ctr₁ : ℚ),
      process_distance_events dq st rs ctr = some (dq₁, rs₁, ctr₁) →
      process_events dq tq st rs ctr =
        some (dq₁, (process_time_events tq st rs₁).1,
          (process_time_events tq st rs₁).2, ctr₁)) ∧
    (∀ (env : Env) (race : Race) (car : Car) (esr bs : ℚ)
       (ts : List (ℚ × ℚ)) (dt : ℚ) (n : ℕ) (ls ls₁ : LoopState),
      runAux env race car esr bs ts dt n ls = .fuelOut ls₁ →
      (∃ fd, ls.distQ = fd ++ ls₁.distQ ∧
        (List.Pairwise (fun a b : DistEvent => a.distance ≤ b.distance)
            ls.distQ →
          List.Pairwise (fun a b : DistEvent => a.distance ≤ b.distance) fd) ∧
        ∀ e : DistEvent, fd.count e + ls₁.distQ.count e = ls.distQ.count e) ∧
      (∃ ft, ls.timeQ = ft ++ ls₁.timeQ ∧
        (List.Pairwise (fun a b : TimeEvent => a.time ≤ b.time) ls.timeQ →
          List.Pairwise (fun a b : TimeEvent => a.time ≤ b.time) ft) ∧
        ∀ e : TimeEvent, ft.count e + ls₁.timeQ.count e = ls.timeQ.count e)) := by
  refine ⟨?_, ?_, ?_, ?_⟩
  · intro dq tq st rs ctr dq' tq' rs' ctr' h
    obtain ⟨⟨hdrop, hfired⟩, ⟨hdropt, hfiredt⟩⟩ :=
      process_events_spec dq tq st rs ctr dq' tq' rs' ctr' h
    refine ⟨hdrop, hdropt, hfired, hfiredt, ?_, ?_⟩
    · intro hp e he
      rw [hdrop] at he
      exact pairwise_dropWhile_not_due DistEvent.distance st.distance dq hp e he
    · intro hp e he
      rw [hdropt] at he
      exact pairwise_dropWhile_not_due TimeEvent.time st.time tq hp e he
  · intro dq tq st rs ctr h
    unfold process_events
    rw [h]
  · intro dq tq st rs ctr dq₁ rs₁ ctr₁ h
    unfold process_events
    rw [h]
  · intro env race car esr bs ts dt n ls ls₁ h
    obtain ⟨⟨fd, hfd⟩, ⟨ft, hft⟩⟩ :=
      runAux_queues env race car esr bs ts dt n ls ls₁ h
    refine ⟨⟨fd, hfd, ?_, ?_⟩, ⟨ft, hft, ?_, ?_⟩⟩
    · intro hp
      rw [hfd] at hp
      exact (List.pairwise_append.mp hp).1
    · intro e
      rw [hfd, List.count_append]
    · intro hp
      rw [hft] at hp
      exact (List.pairwise_append.mp hp).1
    · intro e
      rw [hft, List.count_append]

/-- Fixture control stop for the C5 witness: due at distance 0, on time. -/
def ctrlW : ControlStop := ⟨"control", 0, 7, 5⟩

/-- Actions produced by firing a control stop. -/
def rsCW : RaceActions := ⟨false, true, false, true, false, true⟩

/-- Fixture loop state for the C5 run-level witness. -/
def lsW5 : LoopState :=
  ⟨[DistEvent.control ctrlW], [], stW, raW, 0, 0, 0, [(stW, 0, 0)]⟩

/-- C5 witness: the per-call part of the theorem applied to a queue with
one due control stop, and the run-level part applied at fuel 0. -/
theorem c5_event_ordering_witness :
    (process_events [DistEvent.control ctrlW] [] stW raW 0 =
      some ([], [], rsCW, 7)) ∧
    (([] : List DistEvent) =
        [DistEvent.control ctrlW].dropWhile
          (fun e => decide (e.distance ≤ stW.distance)) ∧
      ([] : List TimeEvent) =
        ([] : List TimeEvent).dropWhile (fun e => decide (e.time ≤ stW.time)) ∧
      (∃ fired, [DistEvent.control ctrlW] = fired ++ ([] : List DistEvent) ∧
        ∀ e ∈ fired, e.distance ≤ stW.distance) ∧
      (∃ fired, ([] : List TimeEvent) = fired ++ ([] : List TimeEvent) ∧
        ∀ e ∈ fired, e.time ≤ stW.time) ∧
      (List.Pairwise (fun a b : DistEvent => a.distance ≤ b.distance)
          [DistEvent.control ctrlW] →
        ∀ e ∈ ([] : List DistEvent), ¬ e.distance ≤ stW.distance) ∧
      (List.Pairwise (fun a b : TimeEvent => a.time ≤ b.time)
          ([] : List TimeEvent) →
        ∀ e ∈ ([] : List TimeEvent), ¬ e.time ≤ stW.time)) ∧
    (runAux envW raceW carW 1 1 tsW 1 0 lsW5 = .fuelOut lsW5) ∧
    ((∃ fd, lsW5.distQ = fd ++ lsW5.distQ ∧
        (List.Pairwise (fun a b : DistEvent => a.distance ≤ b.distance)
            lsW5.distQ →
          List.Pairwise (fun a b : DistEvent => a.distance ≤ b.distance) fd) ∧
        ∀ e : DistEvent, fd.count e + lsW5.distQ.count e = lsW5.distQ.count e) ∧
      (∃ ft, lsW5.timeQ = ft ++ lsW5.timeQ ∧
        (List.Pairwise (fun a b : TimeEvent => a.time ≤ b.time) lsW5.timeQ →
          List.Pairwise (fun a b : TimeEvent => a.time ≤ b.time) ft) ∧
        ∀ e : TimeEvent, ft.count e + lsW5.timeQ.count e = lsW5.timeQ.count e)) := by
  have hpe : process_events [DistEvent.control ctrlW] [] stW raW 0 =
      some ([], [], rsCW, 7) := by
    norm_num [process_events, process_distance_events, process_time_events,
      ctrlW, stW, raW, rsCW, DistEvent.distance]
  have hrun : runAux envW raceW carW 1 1 tsW 1 0 lsW5 = .fuelOut lsW5 := rfl
  exact ⟨hpe,
    c5_event_ordering.1 [DistEvent.control ctrlW] [] stW raW 0 [] [] rsCW 7 hpe,
    hrun,
    c5_event_ordering.2.2.2 envW raceW carW 1 1 tsW 1 0 lsW5 lsW5 hrun⟩
